import Mathlib

/-!
Verification development for the dataset preparation and slicing pipeline
of the `datasets` repository.

The pure logic of the repository's source files is embedded as Lean
definitions; components whose implementation is not part of the source
tree (only their tests, declarations or callers are) are modelled from
the specification text, with a doc comment marking them as such.
-/

namespace Spec2Proof

/-! ## Shard filenames

Embedded from `tensorflow_datasets/core/dataset_builder_beam_test.py`:
the test `_assertBeamGeneration` asserts that the shards materialized for
a split are exactly the files
`dataset-split.tfrecord-IIIII-of-TTTTT` for indices 0..total-1, where
each number is zero-padded to at least five digits (Python `"{:05}"`).
-/

/-- Zero padding of a natural number to at least five digits, as Python
`"\x7b:05\x7d".format(n)` produces. -/
def pad5 (n : Nat) : String :=
  let s := Nat.repr n
  String.mk (List.replicate (5 - s.length) (Char.ofNat 48)) ++ s

/-- Shard filename as asserted by the repository's test pattern
`dummy_beam_dataset-test.tfrecord-...-of-...` (with the dataset name and
split generalized): dataset ++ "-" ++ split ++ ".tfrecord-" ++ index
++ "-of-" ++ total. -/
def tfrecordShardFilename (dataset split : String) (index total : Nat) : String :=
  dataset ++ "-" ++ split ++ ".tfrecord-" ++ pad5 index ++ "-of-" ++ pad5 total

/-- Modelled from the spec: the spec's claimed shard naming scheme
`dataset-split.shard-IIIII-of-TTTTT`, to be compared with the pattern the
source's test actually asserts. -/
def specShardFilename (dataset split : String) (index total : Nat) : String :=
  dataset ++ "-" ++ split ++ ".shard-" ++ pad5 index ++ "-of-" ++ pad5 total

/-- The full set of shard filenames for a split with `num` realized
shards, as computed by `_assertShards` in the test
(`[pattern.format(i, num_shards) for i in range(num_shards)]`). -/
def shardsFilenames (dataset split : String) (num : Nat) : List String :=
  (List.range num).map (fun i => tfrecordShardFilename dataset split i num)

/-! ## download_gcs_file

Embedded from `tensorflow_datasets/core/utils/gcs_utils.py`. The function
builds the bucket URL, performs exactly one `requests.get`, and raises
`ValueError("GCS bucket inaccessible")` when the response is not ok. The
network is modelled as a transport oracle giving, for each URL, the
response each successive fetch attempt would receive; `download_gcs_file`
issues only attempt 0. The `out_fname` streaming branch writes the same
content to a file instead of returning it and is irrelevant to the retry
behaviour, so the embedding returns the content.
-/

/-- An HTTP response: `resp.ok` and `resp.content`. -/
structure HttpResp where
  ok : Bool
  content : String
deriving DecidableEq

/-- The GCS bucket root, `posixpath.join(GCS_URL, "tfds-data")`. -/
def GCS_BUCKET : String := "http://storage.googleapis.com" ++ "/" ++ "tfds-data"

/-- URL construction of `download_gcs_file`: `posixpath.join(GCS_BUCKET,
path)` followed by appending the optional prefix filter query (a falsy
prefix filter is modelled as `none`). -/
def gcsUrl (path : String) (prefixFilter : Option String) : String :=
  let url :=
    if path = "" then GCS_BUCKET ++ "/"
    else if "/".isPrefixOf path then path
    else GCS_BUCKET ++ "/" ++ path
  match prefixFilter with
  | none => url
  | some p => url ++ "?prefix=" ++ p

/-- Embedding of `download_gcs_file`: one single fetch attempt (attempt
number 0 of the transport oracle); a response that is not ok raises
immediately. -/
def download_gcs_file (transport : String → Nat → HttpResp) (path : String)
    (prefixFilter : Option String) : Except String String :=
  let url := gcsUrl path prefixFilter
  let resp := transport url 0
  if resp.ok then Except.ok resp.content
  else Except.error "GCS bucket inaccessible"

/-- A transport whose first attempt fails transiently and whose every
later attempt would succeed. -/
def transientTransport : String → Nat → HttpResp :=
  fun _ k => if k = 0 then ⟨false, ""⟩ else ⟨true, "content"⟩

/-! ## IntegrityStore

Modelled from the spec (section 4.2): the implementation of the checksum
store is not part of the source tree. `record` registers an expected
checksum with last-write-wins semantics; `verify` accepts unknown URLs
permissively and otherwise requires both size and hash to match.
-/

/-- A checksum store: list of (url, byte size, content hash) records,
most recent first. -/
def ChecksumStore : Type := List (String × Nat × String)

/-- Modelled from the spec: `record(url, size, hash)` registers an
expected checksum; re-recording prepends, so the latest record shadows
older ones (last write wins). -/
def recordChecksum (store : ChecksumStore) (url : String) (size : Nat)
    (hash : String) : ChecksumStore :=
  (url, size, hash) :: store

/-- Look up the effective checksum record for a URL (the most recently
recorded one). -/
def lookupChecksum : ChecksumStore → String → Option (Nat × String)
  | [], _ => none
  | (u, s, h) :: rest, url => if u = url then some (s, h) else lookupChecksum rest url

/-- Modelled from the spec: `verify(url, actual_size, actual_hash)`
returns true if no record exists or if both size and hash match, false
otherwise. -/
def verify (store : ChecksumStore) (url : String) (actualSize : Nat)
    (actualHash : String) : Bool :=
  match lookupChecksum store url with
  | none => true
  | some (s, h) => s == actualSize && h == actualHash

/-! ## ReadInstructionResolver

Modelled from the spec (section 4.5): the resolver implementation is not
part of the source tree. Percentage bounds are converted against the
split's total record count with floor rounding for start bounds and the
complementary ceiling for end bounds, and an absolute record range is
resolved against the per-shard record counts into one
(shard index, local start, local end) triple per shard the range touches.
-/

/-- Modelled from the spec: conversion of a percentage start bound, floor
of p·R/100. -/
def pctStart (p R : Nat) : Nat := p * R / 100

/-- Modelled from the spec: conversion of a percentage end bound by the
complementary ceiling, ceil of p·R/100. -/
def pctEnd (p R : Nat) : Nat := (p * R + 99) / 100

/-- Resolution of the absolute record range [s, e) against the shard
record counts, carrying the current shard index and the absolute offset
of the current shard; emits a triple for every shard whose absolute
interval meets [s, e). -/
def resolveAux (s e : Nat) : List Nat → Nat → Nat → List (Nat × Nat × Nat)
  | [], _, _ => []
  | L :: rest, idx, offset =>
    let lo := offset
    let hi := offset + L
    let tail := resolveAux s e rest (idx + 1) hi
    if max s lo < min e hi then (idx, max s lo - lo, min e hi - lo) :: tail
    else tail

/-- Modelled from the spec: resolve the absolute record range [s, e)
against a split's per-shard record counts into its ordered list of
(shard index, local start, local end) triples. -/
def resolveRange (lens : List Nat) (s e : Nat) : List (Nat × Nat × Nat) :=
  resolveAux s e lens 0 0

/-! ## ShardWriter round-robin assignment

Modelled from the spec (section 4.3): with a declared fixed shard count
n, records are distributed round-robin across the n shards in generation
order (shard = index mod n). Shards are modelled as an index-to-contents
function; the writer appends each record to the shard of its generation
index.
-/

/-- Round-robin writer loop: append each record, at running generation
index k, to shard k mod n. -/
def writeShardsAux {α : Type} (n : Nat) :
    List α → Nat → (Nat → List α) → Nat → List α
  | [], _, buckets => buckets
  | r :: rs, k, buckets =>
    writeShardsAux n rs (k + 1)
      (fun j => if j = k % n then buckets j ++ [r] else buckets j)

/-- Modelled from the spec: write a deterministic generator's records
into n shards round-robin, starting from n empty shards. -/
def writeShards {α : Type} (n : Nat) (records : List α) : Nat → List α :=
  writeShardsAux n records 0 (fun _ => [])

/-! ## BuilderOrchestrator

Modelled from the spec (sections 3, 4.3, 7): the orchestrator
implementation is not part of the source tree. Preparation short-circuits
when a validating manifest for the version already exists (unless
forced); on any step failure, partially written shards are left in place
but the manifest is not written; the manifest is written only after all
splits' shards have been written, and its presence with a matching
version is the sole signal that preparation is complete.
-/

/-- Orchestration states of a preparation run. -/
inductive PrepState where
  | unprepared
  | downloading
  | generating
  | writing
  | prepared
  | failed
deriving DecidableEq

/-- A dataset manifest: the version it was prepared for and the shard
files of all splits. -/
structure Manifest where
  version : String
  shardFiles : List String
deriving DecidableEq

/-- The dataset-version output directory: shard files present on disk and
the optional manifest. -/
structure Disk where
  shards : List String
  manifest : Option Manifest
deriving DecidableEq

/-- Modelled from the spec: the orchestrator's entry condition — a
manifest for this exact version exists and validates (all declared shards
present on disk). -/
def manifestValidates (disk : Disk) (version : String) : Bool :=
  match disk.manifest with
  | none => false
  | some m =>
    m.version == version && m.shardFiles.all (fun f => disk.shards.contains f)

/-- Write the declared splits in order; each split's generation either
fails (`none`) or yields its shard files. On the first failure, shards of
prior splits are kept and the run stops. Returns the shards written and
whether every split succeeded. -/
def writeSplitsAcc : List (Option (List String)) → List String × Bool
  | [] => ([], true)
  | none :: _ => ([], false)
  | some fs :: rest =>
    let tail := writeSplitsAcc rest
    (fs ++ tail.1, tail.2)

/-- Modelled from the spec: one preparation run. Short-circuits on a
validating manifest unless forced; a download failure fails the run
before any shard is written; otherwise the splits are written, and only
when all of them succeed is the manifest written and the run marked
prepared — any failure leaves partial shards in place and the manifest
untouched. -/
def prepare (disk : Disk) (version : String) (force downloadOk : Bool)
    (splitResults : List (Option (List String))) : Disk × PrepState :=
  if manifestValidates disk version && !force then (disk, PrepState.prepared)
  else if !downloadOk then (disk, PrepState.failed)
  else
    let ws := writeSplitsAcc splitResults
    if ws.2 then
      (⟨disk.shards ++ ws.1, some ⟨version, ws.1⟩⟩, PrepState.prepared)
    else (⟨disk.shards ++ ws.1, disk.manifest⟩, PrepState.failed)

/-! ## DownloadCache

Modelled from the spec (sections 4.1, 8): the download cache
implementation is not part of the source tree. The cache maps URLs to
local paths; a hit returns immediately with no fetch, a miss performs one
network fetch, verifies it against the checksum store and caches the
verified result; an integrity failure is a hard error.
-/

/-- State of the download cache: cached (url, local path) entries, and
the number of network fetches performed so far. -/
structure DlState where
  cache : List (String × String)
  fetchCount : Nat
deriving DecidableEq

/-- Look up the cache entry for a URL. -/
def lookupCache : List (String × String) → String → Option String
  | [], _ => none
  | (u, p) :: rest, url => if u = url then some p else lookupCache rest url

/-- The local artifact path for a URL (content-addressed store keyed by a
stable function of the URL). -/
def localPathOf (url : String) : String := "downloads/" ++ url

/-- Modelled from the spec: `download(url)`. A cached result is returned
immediately without re-fetching; otherwise the URL is fetched once
(incrementing the fetch count), verified against the checksum store, and
on success cached and returned; a verification failure raises
IntegrityError. The fetch oracle gives the (size, hash) the network
returns for a URL. -/
def download (checks : ChecksumStore) (fetched : String → Nat × String)
    (st : DlState) (url : String) : Except String (String × DlState) :=
  match lookupCache st.cache url with
  | some p => Except.ok (p, st)
  | none =>
    let sh := fetched url
    if verify checks url sh.1 sh.2 then
      Except.ok (localPathOf url,
        ⟨(url, localPathOf url) :: st.cache, st.fetchCount + 1⟩)
    else Except.error "IntegrityError"

/-! ## clean_page

Embedded from `tensorflow_datasets/text/c4_utils.py`. Python string
primitives are implemented over the character list of the string so that
they evaluate inside the kernel; the citation regex substitution, the
optional badword regex search and the external nltk sentence tokenizer
are parameters of `clean_page` in the source and are therefore modelled
as function parameters. Whitespace handling follows `Char.isWhitespace`
(space, tab, CR, LF), covering the inputs considered here.
-/

/-- Python `str.strip()`: remove leading and trailing whitespace. -/
def pyStrip (s : String) : String :=
  String.mk
    (((s.data.dropWhile Char.isWhitespace).reverse.dropWhile
        Char.isWhitespace).reverse)

/-- Split a character list on a separator character (Python
`str.split(sep)` semantics on characters). -/
def splitOnChar (sep : Char) : List Char → List (List Char)
  | [] => [[]]
  | c :: rest =>
    let r := splitOnChar sep rest
    if c = sep then [] :: r
    else
      match r with
      | [] => [[c]]
      | g :: gs => (c :: g) :: gs

/-- Python `str.splitlines()` for newline-separated text (a trailing
newline additionally yields one final empty line, which every filter of
`clean_page` discards). -/
def pyLines (s : String) : List String :=
  (splitOnChar (Char.ofNat 10) s.data).map String.mk

/-- Count of maximal non-whitespace runs, with a flag telling whether the
previous character was inside a word. -/
def pyWordCount : List Char → Bool → Nat
  | [], _ => 0
  | c :: rest, inWord =>
    if c.isWhitespace then pyWordCount rest false
    else (if inWord then 0 else 1) + pyWordCount rest true

/-- Python `len(s.split())`: the number of whitespace-separated words. -/
def pyNumWords (s : String) : Nat := pyWordCount s.data false

/-- Python `s.lower()` (ASCII case folding suffices for the filters). -/
def pyLower (s : String) : String := String.mk (s.data.map Char.toLower)

/-- Python `s.endswith(suffix)`. -/
def pyEndsWith (s suffix : String) : Bool := suffix.data.isSuffixOf s.data

/-- Whether p occurs as a contiguous sublist of the second list. -/
def listInfixB (p : List Char) : List Char → Bool
  | [] => p.isEmpty
  | c :: t => p.isPrefixOf (c :: t) || listInfixB p t

/-- Python `sub in s` substring containment. -/
def strContainsSub (s sub : String) : Bool := listInfixB sub.data s.data

/-- The `_END_MARKS` of c4_utils: full stop, question mark, exclamation
mark, double quote. -/
def endMarks : List Char := [Char.ofNat 46, Char.ofNat 63, Char.ofNat 33, Char.ofNat 34]

/-- Python `line.endswith(_END_MARKS)`: the line ends with one of the end
marks (each a single character). -/
def endsWithAnyMark (s : String) : Bool :=
  endMarks.any (fun c => pyEndsWith s (String.mk [c]))

/-- The `_ELLIPSIS` constant of c4_utils. -/
def ellipsis : String := "..."

/-- The opening curly bracket, `"\x7b"`, whose presence drops the page. -/
def lbrace : String := String.mk [Char.ofNat 123]

/-- The `_POLICY_SUBSTRINGS` of c4_utils. -/
def policySubstrings : List String :=
  ["terms of use", "privacy policy", "cookie policy", "uses cookies",
    "use of cookies", "use cookies"]

/-- The badword search of `clean_page`: absent badwords regex means no
badword filtering; otherwise search the lowercased line. -/
def badwordHit (badwords : Option (String → Bool)) (lower : String) : Bool :=
  match badwords with
  | none => false
  | some bw => bw lower

/-- The line loop of `clean_page`: processes the split lines in order,
accumulating the running nltk sentence count of retained lines and the
retained lines themselves; a line failing the end-mark/ellipsis test, the
word-count test, the javascript test or the policy test is skipped; a
line containing lorem ipsum or an opening curly bracket, or matching the
badword search, drops the whole page; at the end the page is dropped when
the accumulated sentence count is below the minimum. -/
def cleanLines (citationSub : String → String)
    (badwords : Option (String → Bool)) (sentCount : String → Nat)
    (minWordsPerLine minNumSentences : Nat) :
    List String → Nat → List String → Option (List String)
  | [], numSentences, valid =>
    if numSentences < minNumSentences then none else some valid
  | l :: rest, numSentences, valid =>
    if (!endsWithAnyMark (citationSub (pyStrip l)) ||
        pyEndsWith (citationSub (pyStrip l)) ellipsis) then
      cleanLines citationSub badwords sentCount minWordsPerLine
        minNumSentences rest numSentences valid
    else if pyNumWords (citationSub (pyStrip l)) < minWordsPerLine then
      cleanLines citationSub badwords sentCount minWordsPerLine
        minNumSentences rest numSentences valid
    else if strContainsSub (pyLower (citationSub (pyStrip l))) "lorem ipsum" then
      none
    else if strContainsSub (pyLower (citationSub (pyStrip l))) "javascript" then
      cleanLines citationSub badwords sentCount minWordsPerLine
        minNumSentences rest numSentences valid
    else if strContainsSub (citationSub (pyStrip l)) lbrace then
      none
    else if policySubstrings.any
        (fun p => strContainsSub (pyLower (citationSub (pyStrip l))) p) then
      cleanLines citationSub badwords sentCount minWordsPerLine
        minNumSentences rest numSentences valid
    else if badwordHit badwords (pyLower (citationSub (pyStrip l))) then
      none
    else
      cleanLines citationSub badwords sentCount minWordsPerLine
        minNumSentences rest
        (numSentences + sentCount (citationSub (pyStrip l)))
        (valid ++ [citationSub (pyStrip l)])

/-- Embedding of `clean_page`: split the page text into lines, run the
line loop, and on success yield the url with the retained lines joined by
newlines and stripped. -/
def clean_page (citationSub : String → String)
    (badwords : Option (String → Bool)) (sentCount : String → Nat)
    (minWordsPerLine minNumSentences : Nat) (url text : String) :
    Option (String × String) :=
  match cleanLines citationSub badwords sentCount minWordsPerLine
      minNumSentences (pyLines text) 0 [] with
  | none => none
  | some valid => some (url, pyStrip (String.intercalate "\n" valid))

/-- A retained line as the amended claim describes it: ends with an end
mark, does not end with an ellipsis, has at least mw words, and contains
no opening curly bracket. -/
def GoodLine (mw : Nat) (l : String) : Prop :=
  endsWithAnyMark l = true ∧ pyEndsWith l ellipsis = false ∧
    mw ≤ pyNumWords l ∧ strContainsSub l lbrace = false

/-- Whether a processed line passes the end-mark, ellipsis and word-count
filters, after which the lorem ipsum check is reached. -/
def passesPreFilters (mw : Nat) (line : String) : Bool :=
  endsWithAnyMark line && !pyEndsWith line ellipsis &&
    !decide (pyNumWords line < mw)

/-- A page whose first line contains lorem ipsum but lacks an end mark
(so the end-mark filter skips it before the lorem ipsum check), followed
by three clean five-word sentences. -/
def loremPageText : String :=
  "lorem ipsum dolor sit amet xx\nAlpha beta gamma delta epsilon.\nBravo charlie delta echo foxtrot.\nGolf hotel india juliet kilo."

/-- A page of three clean five-word sentences. -/
def goodPageText : String :=
  "Alpha beta gamma delta epsilon.\nBravo charlie delta echo foxtrot.\nGolf hotel india juliet kilo."

/-- A page whose first line passes the end-mark and word-count filters
and contains lorem ipsum. -/
def loremFilteredText : String :=
  "Lorem ipsum dolor sit amet consectetur.\nAlpha beta gamma delta epsilon."

/-! ## dedupe_urls

Embedded from `tensorflow_datasets/text/c4_utils.py`, `dedupe_urls`:
`v = None; for v in vals: cnt += 1; return url, v` — the loop leaves `v`
bound to the last element of `vals` (`None` when `vals` is empty).
-/

/-- Embedding of `dedupe_urls`: the Python loop variable `v` ends up
holding the last value of the iterable (or None when it is empty); the
counter side effects are not modelled. -/
def dedupe_urls {α : Type} (el : String × List α) : String × Option α :=
  (el.1, el.2.foldl (fun _ v => some v) none)

/-! ### Theorems -/

theorem foldl_some_last {α : Type} (vals : List α) (h : vals ≠ []) (a : Option α) :
    vals.foldl (fun _ v => some v) a = some (vals.getLast h) := by
  induction vals generalizing a with
  | nil => exact absurd rfl h
  | cons x xs ih =>
    cases xs with
    | nil => simp [List.foldl, List.getLast]
    | cons y ys =>
      rw [List.foldl_cons, ih (by simp) (some x)]
      simp [List.getLast_cons]

/-- C10: for every pair (url, vals) with vals non-empty, `dedupe_urls`
returns (url, v) where v is the last element of vals — the final value in
iteration order wins, not the first as the docstring states. -/
theorem dedupe_urls_last {α : Type} (url : String) (vals : List α)
    (h : vals ≠ []) :
    dedupe_urls (url, vals) = (url, some (vals.getLast h)) := by
  simp [dedupe_urls, foldl_some_last vals h]

/-- C10 witness: on vals = [1, 2, 3] the value returned is 3 (the last,
not the first). -/
theorem dedupe_urls_last_witness :
    ([1, 2, 3] : List Nat) ≠ [] ∧
      dedupe_urls ("u", ([1, 2, 3] : List Nat)) = ("u", some 3) :=
  ⟨by decide, dedupe_urls_last "u" [1, 2, 3] (by decide)⟩

/-- C7: `verify` returns true iff no checksum record exists for the URL
or the recorded size and hash both equal the actual ones; in particular
it returns false for every differing (size, hash) pair. -/
theorem verify_iff (store : ChecksumStore) (url : String) (size : Nat)
    (hash : String) :
    verify store url size hash = true ↔
      (lookupChecksum store url = none ∨
        lookupChecksum store url = some (size, hash)) := by
  unfold verify
  cases hlk : lookupChecksum store url with
  | none => simp
  | some sh =>
    cases sh with
    | mk s h =>
      simp only [Bool.and_eq_true, beq_iff_eq]
      constructor
      · rintro ⟨rfl, rfl⟩
        exact Or.inr rfl
      · rintro (hc | hc)
        · exact absurd hc (by simp)
        · injection hc with hc
          injection hc with h1 h2
          exact ⟨h1, h2⟩

/-- C1 counterexample: the shard file the source's test requires on disk
for (dummy_beam_dataset, train, index 0 of 10) is
`dummy_beam_dataset-train.tfrecord-00000-of-00010`, and the spec's
`.shard-` pattern name for the same shard is not among the filenames the
test asserts, so the on-disk names do not follow the claimed scheme. -/
theorem shard_naming_counterexample :
    (shardsFilenames "dummy_beam_dataset" "train" 10).head? =
        some "dummy_beam_dataset-train.tfrecord-00000-of-00010" ∧
      specShardFilename "dummy_beam_dataset" "train" 0 10 ∉
        shardsFilenames "dummy_beam_dataset" "train" 10 := by
  decide

/-- C1 (amended): every shard file materialized for a split is named
`dataset-split.tfrecord-IIIII-of-TTTTT` (indices zero-padded to five
digits), and the set of shard filenames for a split of `num` realized
shards is exactly this pattern instantiated at indices 0..num-1. -/
theorem shardsFilenames_exact (dataset split : String) (num : Nat) (f : String) :
    f ∈ shardsFilenames dataset split num ↔
      ∃ i, i < num ∧ f = tfrecordShardFilename dataset split i num := by
  simp only [shardsFilenames, List.mem_map, List.mem_range]
  constructor
  · rintro ⟨i, hi, rfl⟩
    exact ⟨i, hi, rfl⟩
  · rintro ⟨i, hi, rfl⟩
    exact ⟨i, hi, rfl⟩

/-- C2 counterexample: under a transport whose first fetch attempt fails
transiently (every later attempt would succeed), `download_gcs_file`
surfaces the terminal error immediately — the single transient network
failure is surfaced to the caller with no retry. -/
theorem download_gcs_file_counterexample :
    download_gcs_file transientTransport "datasets/mnist" none =
        Except.error "GCS bucket inaccessible" ∧
      (transientTransport (gcsUrl "datasets/mnist" none) 1).ok = true := by
  exact ⟨rfl, rfl⟩

/-- C2 (amended): `download_gcs_file` performs exactly one fetch attempt:
if the first attempt's response is not ok it raises
"GCS bucket inaccessible" immediately, and its result depends only on
attempt 0 of the transport (no further attempt is ever consulted). -/
theorem download_gcs_file_no_retry (t tAlt : String → Nat → HttpResp)
    (path : String) (pf : Option String)
    (hfail : (t (gcsUrl path pf) 0).ok = false)
    (hagree : tAlt (gcsUrl path pf) 0 = t (gcsUrl path pf) 0) :
    download_gcs_file t path pf = Except.error "GCS bucket inaccessible" ∧
      download_gcs_file tAlt path pf = download_gcs_file t path pf := by
  simp only [download_gcs_file]
  rw [hagree]
  simp [hfail]

/-- C2 witness: instantiating the no-retry theorem at the transient
transport and a transport that fails on every attempt. -/
theorem download_gcs_file_no_retry_witness :
    (transientTransport (gcsUrl "datasets/mnist" none) 0).ok = false ∧
      (fun (_ : String) (_ : Nat) => HttpResp.mk false "")
          (gcsUrl "datasets/mnist" none) 0 =
        transientTransport (gcsUrl "datasets/mnist" none) 0 ∧
      download_gcs_file transientTransport "datasets/mnist" none =
        Except.error "GCS bucket inaccessible" :=
  ⟨by decide, by decide,
    (download_gcs_file_no_retry transientTransport
      (fun _ _ => HttpResp.mk false "") "datasets/mnist" none
      (by decide) (by decide)).1⟩

/-- C3: against shard record counts [40, 35, 25] (total 100), resolving
train[20:60] yields exactly (0, 20, 40) and (1, 0, 20) in that order,
resolving train[90%:] (start = floor of 90% of 100 = 90) yields exactly
(2, 15, 25), and every emitted triple respects its shard's own record
count. -/
theorem resolve_concrete_scenario :
    resolveRange [40, 35, 25] 20 60 = [(0, 20, 40), (1, 0, 20)] ∧
      resolveRange [40, 35, 25] (pctStart 90 100) 100 = [(2, 15, 25)] ∧
      ∀ t ∈ resolveRange [40, 35, 25] 20 60 ++
          resolveRange [40, 35, 25] (pctStart 90 100) 100,
        t.2.1 ≤ t.2.2 ∧ t.2.2 ≤ [40, 35, 25].getD t.1 0 := by
  decide

/-- C4 counterexample: for a split of 7 records and cut point 50%, the
spec's floor-start and ceiling-end conversions give slice [:50%] the
records [0, 4) and slice [50%:] the records [3, 7); record 3 lies in
both, so the two slices are not disjoint. -/
theorem pct_boundary_counterexample :
    3 ∈ Finset.Ico 0 (pctEnd 50 7) ∧
      3 ∈ Finset.Ico (pctStart 50 7) 7 ∧
      ¬ Disjoint (Finset.Ico 0 (pctEnd 50 7)) (Finset.Ico (pctStart 50 7) 7) := by
  decide

/-- C4 (amended): when the start and end bounds are converted with the
same floor rounding (one cut point per percentage), the slices [:p%] and
[p%:] of a split of R records are disjoint and their union is exactly
[0, R), for every p ≤ 100. -/
theorem pct_slices_partition (R p : Nat) (hp : p ≤ 100) :
    Disjoint (Finset.Ico 0 (pctStart p R)) (Finset.Ico (pctStart p R) R) ∧
      Finset.Ico 0 (pctStart p R) ∪ Finset.Ico (pctStart p R) R =
        Finset.Ico 0 R := by
  refine ⟨Finset.Ico_disjoint_Ico_consecutive 0 (pctStart p R) R, ?_⟩
  apply Finset.Ico_union_Ico_eq_Ico (Nat.zero_le _)
  unfold pctStart
  calc p * R / 100 ≤ 100 * R / 100 := by gcongr
    _ = R := by omega

/-- C4 witness: at R = 7 and p = 50 the amended slices [0, 3) and [3, 7)
partition [0, 7). -/
theorem pct_slices_partition_witness :
    50 ≤ 100 ∧
      (Disjoint (Finset.Ico 0 (pctStart 50 7)) (Finset.Ico (pctStart 50 7) 7) ∧
        Finset.Ico 0 (pctStart 50 7) ∪ Finset.Ico (pctStart 50 7) 7 =
          Finset.Ico 0 7) :=
  ⟨by decide, pct_slices_partition 7 50 (by decide)⟩

theorem writeShardsAux_mem_mono {α : Type} (n : Nat) (rs : List α) (k : Nat)
    (buckets : Nat → List α) (j : Nat) (x : α) (hx : x ∈ buckets j) :
    x ∈ writeShardsAux n rs k buckets j := by
  induction rs generalizing k buckets with
  | nil => exact hx
  | cons r rs ih =>
    apply ih
    show x ∈ if j = k % n then buckets j ++ [r] else buckets j
    by_cases hj : j = k % n
    · rw [if_pos hj]
      exact List.mem_append_left _ hx
    · rw [if_neg hj]
      exact hx

theorem writeShardsAux_assign {α : Type} (n : Nat) (rs : List α) (k : Nat)
    (buckets : Nat → List α) (i : Nat) (hi : i < rs.length) :
    rs.get ⟨i, hi⟩ ∈ writeShardsAux n rs k buckets ((k + i) % n) := by
  induction rs generalizing k buckets i with
  | nil => exact absurd hi (by simp)
  | cons r rs ih =>
    cases i with
    | zero =>
      show (r :: rs).get ⟨0, hi⟩ ∈
        writeShardsAux n rs (k + 1)
          (fun j => if j = k % n then buckets j ++ [r] else buckets j)
          ((k + 0) % n)
      apply writeShardsAux_mem_mono
      show r ∈
        if (k + 0) % n = k % n then buckets ((k + 0) % n) ++ [r]
        else buckets ((k + 0) % n)
      rw [if_pos (by rw [Nat.add_zero])]
      exact List.mem_append_right _ (List.mem_singleton_self r)
    | succ i =>
      have : (k + (i + 1)) % n = ((k + 1) + i) % n := by
        congr 1
        omega
      rw [this]
      exact ih (k + 1) _ i (Nat.lt_of_succ_lt_succ hi)

/-- C5: for a fixed shard count n and a deterministic generator producing
the record list `records`, the record at generation index i is assigned
to shard i mod n, and re-running generation from scratch on the same
generator output produces the same assignment. -/
theorem roundRobin_assignment {α : Type} (records rerun : List α) (n i : Nat)
    (hn : 0 < n) (hi : i < records.length) :
    records.get ⟨i, hi⟩ ∈ writeShards n records (i % n) ∧
      (rerun = records → writeShards n rerun = writeShards n records) := by
  refine ⟨?_, fun h => by rw [h]⟩
  have := writeShardsAux_assign n records 0 (fun _ => []) i hi
  simpa [writeShards] using this

/-- C5 witness: with n = 2 shards and records [10, 20, 30], the record at
generation index 2 (value 30) lands in shard 2 mod 2 = 0. -/
theorem roundRobin_assignment_witness :
    0 < 2 ∧ 2 < ([10, 20, 30] : List Nat).length ∧
      ([10, 20, 30] : List Nat).get ⟨2, by decide⟩ ∈
        writeShards 2 [10, 20, 30] (2 % 2) :=
  ⟨by decide, by decide,
    (roundRobin_assignment [10, 20, 30] [10, 20, 30] 2 2 (by decide)
        (by decide)).1⟩

/-- C6: a preparation run over an unprepared dataset-version (no manifest
on disk) that does not reach the prepared state — wherever it failed,
including after some or all shards of a split were written — leaves no
manifest on disk, and a subsequent preparation attempt's entry condition
does not treat the dataset-version as prepared. -/
theorem manifest_atomicity (disk : Disk) (version : String)
    (force downloadOk : Bool) (splitResults : List (Option (List String)))
    (hm : disk.manifest = none)
    (hfail :
      (prepare disk version force downloadOk splitResults).2 ≠
        PrepState.prepared) :
    (prepare disk version force downloadOk splitResults).1.manifest = none ∧
      manifestValidates (prepare disk version force downloadOk splitResults).1
          version = false := by
  have hval : manifestValidates disk version = false := by
    simp [manifestValidates, hm]
  simp only [prepare, hval, Bool.false_and, Bool.false_eq_true, if_false] at hfail ⊢
  cases downloadOk with
  | false =>
    simpa [manifestValidates, hm] using hval
  | true =>
    simp only [Bool.not_true, Bool.false_eq_true, if_false] at hfail ⊢
    cases hw : (writeSplitsAcc splitResults).2 with
    | true => simp [hw] at hfail
    | false => simp [hw, manifestValidates, hm]

/-- C6 witness: a run over an empty unprepared directory whose second
split fails after the first split's shard was written ends failed with
the shard on disk, no manifest, and a non-validating entry condition. -/
theorem manifest_atomicity_witness :
    (Disk.mk [] none).manifest = none ∧
      (prepare ⟨[], none⟩ "1.0.0" false true
            [some ["dummy-train.tfrecord-00000-of-00001"], none]).2 ≠
        PrepState.prepared ∧
      ((prepare ⟨[], none⟩ "1.0.0" false true
              [some ["dummy-train.tfrecord-00000-of-00001"], none]).1.manifest =
          none ∧
        manifestValidates
            (prepare ⟨[], none⟩ "1.0.0" false true
                [some ["dummy-train.tfrecord-00000-of-00001"], none]).1
            "1.0.0" = false) :=
  ⟨rfl, by decide,
    manifest_atomicity ⟨[], none⟩ "1.0.0" false true
      [some ["dummy-train.tfrecord-00000-of-00001"], none] rfl (by decide)⟩

/-- C8: when a first `download` call on a URL missing from the cache
succeeds (fetching and verifying once), a second call on the resulting
state returns the very same artifact and state — in particular it
performs no further network fetch, so across the two calls the network
I/O happened exactly once. -/
theorem download_idempotent (checks : ChecksumStore)
    (fetched : String → Nat × String) (st0 : DlState) (url p1 : String)
    (st1 : DlState) (hmiss : lookupCache st0.cache url = none)
    (h1 : download checks fetched st0 url = Except.ok (p1, st1)) :
    download checks fetched st1 url = Except.ok (p1, st1) ∧
      st1.fetchCount = st0.fetchCount + 1 := by
  simp only [download, hmiss] at h1
  by_cases hv : verify checks url (fetched url).1 (fetched url).2 = true
  · rw [if_pos hv] at h1
    injection h1 with h2
    have hp1 : p1 = localPathOf url := (congrArg Prod.fst h2).symm
    have hst1 :
        st1 = ⟨(url, localPathOf url) :: st0.cache, st0.fetchCount + 1⟩ :=
      (congrArg Prod.snd h2).symm
    subst hp1
    subst hst1
    constructor
    · simp [download, lookupCache]
    · rfl
  · rw [if_neg hv] at h1
    exact absurd h1 (by simp)

/-- C8 witness: with a recorded checksum matching what the network
returns, a first download from an empty cache fetches once and a second
call returns the same artifact with no further fetch. -/
theorem download_idempotent_witness :
    lookupCache (DlState.mk [] 0).cache "u" = none ∧
      download [("u", 1, "h")] (fun _ => (1, "h")) ⟨[], 0⟩ "u" =
        Except.ok ("downloads/u", ⟨[("u", "downloads/u")], 1⟩) ∧
      (download [("u", 1, "h")] (fun _ => (1, "h"))
            ⟨[("u", "downloads/u")], 1⟩ "u" =
          Except.ok ("downloads/u", ⟨[("u", "downloads/u")], 1⟩) ∧
        (DlState.mk [("u", "downloads/u")] 1).fetchCount =
          (DlState.mk [] 0).fetchCount + 1) :=
  ⟨rfl, rfl,
    download_idempotent [("u", 1, "h")] (fun _ => (1, "h")) ⟨[], 0⟩ "u"
      "downloads/u" ⟨[("u", "downloads/u")], 1⟩ rfl rfl⟩

/-- C9 counterexample: a page with a line containing lorem ipsum is
nevertheless yielded by `clean_page` — the lorem ipsum check only runs
for lines that already passed the end-mark and word-count filters, and
here the lorem ipsum line lacks an end mark, so it is merely skipped. -/
theorem clean_page_counterexample :
    (∃ l ∈ pyLines loremPageText,
        strContainsSub (pyLower l) "lorem ipsum" = true) ∧
      clean_page id none (fun _ => 1) 5 3 "http://x" loremPageText =
        some ("http://x", goodPageText) := by
  exact ⟨by decide, by rfl⟩

theorem cleanLines_some_spec (citationSub : String → String)
    (badwords : Option (String → Bool)) (sentCount : String → Nat)
    (mw ms : Nat) (lines : List String) :
    ∀ (n : Nat) (acc out : List String),
      cleanLines citationSub badwords sentCount mw ms lines n acc =
        some out →
      ∃ t, out = acc ++ t ∧ (∀ l ∈ t, GoodLine mw l) ∧
        ms ≤ n + (t.map sentCount).sum := by
  induction lines with
  | nil =>
    intro n acc out h
    simp only [cleanLines] at h
    by_cases hns : n < ms
    · rw [if_pos hns] at h
      exact absurd h (by simp)
    · rw [if_neg hns] at h
      injection h with h
      exact ⟨[], by simp [h], by simp, by simpa using Nat.le_of_not_lt hns⟩
  | cons l rest ih =>
    intro n acc out h
    simp only [cleanLines] at h
    by_cases h1 : (!endsWithAnyMark (citationSub (pyStrip l)) ||
        pyEndsWith (citationSub (pyStrip l)) ellipsis) = true
    · rw [if_pos h1] at h
      exact ih n acc out h
    · rw [if_neg h1] at h
      by_cases h2 : pyNumWords (citationSub (pyStrip l)) < mw
      · rw [if_pos h2] at h
        exact ih n acc out h
      · rw [if_neg h2] at h
        by_cases h3 :
            strContainsSub (pyLower (citationSub (pyStrip l)))
              "lorem ipsum" = true
        · rw [if_pos h3] at h
          exact absurd h (by simp)
        · rw [if_neg h3] at h
          by_cases h4 :
              strContainsSub (pyLower (citationSub (pyStrip l)))
                "javascript" = true
          · rw [if_pos h4] at h
            exact ih n acc out h
          · rw [if_neg h4] at h
            by_cases h5 : strContainsSub (citationSub (pyStrip l)) lbrace = true
            · rw [if_pos h5] at h
              exact absurd h (by simp)
            · rw [if_neg h5] at h
              by_cases h6 : policySubstrings.any
                  (fun p =>
                    strContainsSub (pyLower (citationSub (pyStrip l))) p) = true
              · rw [if_pos h6] at h
                exact ih n acc out h
              · rw [if_neg h6] at h
                by_cases h7 :
                    badwordHit badwords (pyLower (citationSub (pyStrip l))) =
                      true
                · rw [if_pos h7] at h
                  exact absurd h (by simp)
                · rw [if_neg h7] at h
                  obtain ⟨t, ht, hgood, hsum⟩ := ih _ _ _ h
                  refine ⟨citationSub (pyStrip l) :: t, by simp [ht], ?_, ?_⟩
                  · intro x hx
                    rcases List.mem_cons.mp hx with rfl | hx
                    · refine ⟨?_, ?_, Nat.le_of_not_lt h2, ?_⟩
                      · cases hE : endsWithAnyMark (citationSub (pyStrip l)) with
                        | false => exact absurd (by simp [hE]) h1
                        | true => rfl
                      · cases hE : pyEndsWith (citationSub (pyStrip l)) ellipsis with
                        | false => rfl
                        | true => exact absurd (by simp [hE]) h1
                      · cases hE : strContainsSub (citationSub (pyStrip l)) lbrace with
                        | false => rfl
                        | true => exact absurd hE h5
                    · exact hgood x hx
                  · simp only [List.map_cons, List.sum_cons]
                    omega

theorem cleanLines_lorem_none (citationSub : String → String)
    (badwords : Option (String → Bool)) (sentCount : String → Nat)
    (mw ms : Nat) (lines : List String) :
    ∀ (n : Nat) (acc : List String),
      (∃ l ∈ lines, passesPreFilters mw (citationSub (pyStrip l)) = true ∧
        strContainsSub (pyLower (citationSub (pyStrip l)))
          "lorem ipsum" = true) →
      cleanLines citationSub badwords sentCount mw ms lines n acc = none := by
  induction lines with
  | nil =>
    intro n acc h
    exact absurd h (by simp)
  | cons l rest ih =>
    intro n acc h
    obtain ⟨w, hw, hpass, hlor⟩ := h
    simp only [cleanLines]
    rcases List.mem_cons.mp hw with rfl | hwrest
    · have hparts := by
        simpa only [passesPreFilters, Bool.and_eq_true, Bool.not_eq_true',
          decide_eq_false_iff_not] using hpass
      obtain ⟨⟨hm, hel⟩, hlen⟩ := hparts
      rw [if_neg (by simp [hm, hel]), if_neg hlen, if_pos hlor]
    · by_cases h1 : (!endsWithAnyMark (citationSub (pyStrip l)) ||
          pyEndsWith (citationSub (pyStrip l)) ellipsis) = true
      · rw [if_pos h1]
        exact ih n acc ⟨w, hwrest, hpass, hlor⟩
      · rw [if_neg h1]
        by_cases h2 : pyNumWords (citationSub (pyStrip l)) < mw
        · rw [if_pos h2]
          exact ih n acc ⟨w, hwrest, hpass, hlor⟩
        · rw [if_neg h2]
          by_cases h3 :
              strContainsSub (pyLower (citationSub (pyStrip l)))
                "lorem ipsum" = true
          · rw [if_pos h3]
          · rw [if_neg h3]
            by_cases h4 :
                strContainsSub (pyLower (citationSub (pyStrip l)))
                  "javascript" = true
            · rw [if_pos h4]
              exact ih n acc ⟨w, hwrest, hpass, hlor⟩
            · rw [if_neg h4]
              by_cases h5 :
                  strContainsSub (citationSub (pyStrip l)) lbrace = true
              · rw [if_pos h5]
              · rw [if_neg h5]
                by_cases h6 : policySubstrings.any
                    (fun p =>
                      strContainsSub (pyLower (citationSub (pyStrip l))) p) =
                    true
                · rw [if_pos h6]
                  exact ih n acc ⟨w, hwrest, hpass, hlor⟩
                · rw [if_neg h6]
                  by_cases h7 :
                      badwordHit badwords
                          (pyLower (citationSub (pyStrip l))) = true
                  · rw [if_pos h7]
                  · rw [if_neg h7]
                    exact ih _ _ ⟨w, hwrest, hpass, hlor⟩

/-- C9 (amended): if `clean_page` yields a page at all, the yielded text
is the newline join of retained lines each of which ends with an end mark
(full stop, question mark, exclamation mark or double quote), does not
end with an ellipsis, has at least min_words_per_line words and contains
no opening curly bracket, and the retained lines carry at least
min_num_sentences sentences in total; and `clean_page` yields nothing
whenever some input line that passes the end-mark, ellipsis and
word-count filters contains lorem ipsum (case-insensitively). -/
theorem clean_page_amended (citationSub : String → String)
    (badwords : Option (String → Bool)) (sentCount : String → Nat)
    (mw ms : Nat) (url text : String) (out : String × String) :
    (clean_page citationSub badwords sentCount mw ms url text = some out →
      ∃ ls, out = (url, pyStrip (String.intercalate "\n" ls)) ∧
        (∀ l ∈ ls, GoodLine mw l) ∧ ms ≤ (ls.map sentCount).sum) ∧
    ((∃ l ∈ pyLines text,
        passesPreFilters mw (citationSub (pyStrip l)) = true ∧
          strContainsSub (pyLower (citationSub (pyStrip l)))
            "lorem ipsum" = true) →
      clean_page citationSub badwords sentCount mw ms url text = none) := by
  constructor
  · intro h
    unfold clean_page at h
    cases hcl : cleanLines citationSub badwords sentCount mw ms
        (pyLines text) 0 [] with
    | none =>
      rw [hcl] at h
      exact absurd h (by simp)
    | some valid =>
      rw [hcl] at h
      injection h with h
      obtain ⟨t, ht, hgood, hsum⟩ :=
        cleanLines_some_spec citationSub badwords sentCount mw ms
          (pyLines text) 0 [] valid hcl
      refine ⟨valid, h.symm, ?_, ?_⟩
      · intro x hx
        exact hgood x (by simpa [ht] using hx)
      · have : valid = t := by simpa using ht
        rw [this]
        simpa using hsum
  · intro hex
    unfold clean_page
    rw [cleanLines_lorem_none citationSub badwords sentCount mw ms
      (pyLines text) 0 [] hex]

/-- C9 witness: on a page of three clean five-word sentences the amended
theorem's first part applies to the concrete successful run, and on a
page whose first line passes the filters and contains lorem ipsum its
second part yields nothing. -/
theorem clean_page_amended_witness :
    clean_page id none (fun _ => 1) 5 3 "http://x" goodPageText =
        some ("http://x", goodPageText) ∧
      (∃ ls, (("http://x", goodPageText) : String × String) =
          ("http://x", pyStrip (String.intercalate "\n" ls)) ∧
          (∀ l ∈ ls, GoodLine 5 l) ∧
          3 ≤ (ls.map (fun _ => (1 : Nat))).sum) ∧
      (∃ l ∈ pyLines loremFilteredText,
          passesPreFilters 5 (id (pyStrip l)) = true ∧
            strContainsSub (pyLower (id (pyStrip l))) "lorem ipsum" = true) ∧
      clean_page id none (fun _ => 1) 5 3 "http://x" loremFilteredText =
        none :=
  ⟨by rfl,
    (clean_page_amended id none (fun _ => 1) 5 3 "http://x" goodPageText
        ("http://x", goodPageText)).1 (by rfl),
    by decide,
    (clean_page_amended id none (fun _ => 1) 5 3 "http://x"
        loremFilteredText ("http://x", goodPageText)).2 (by decide)⟩

end Spec2Proof
